import Mathlib

/-!
Shallow embedding of the jira-api-consumer repository core
(`src/utils.py`, `src/jira_api.py`): the bulk-write response reconciler,
the three watermark extractors, the record normalizer and the
issue-payload builder, with theorems settling the specification claims.

Python dicts are modelled as Lean structures (a `.get(key, default)`
access on a possibly-missing key becomes an `Option` field with `getD`),
ordered dict mappings as association lists in insertion order, Python
lists as Lean lists, and a Python `IndexError` path as an `Option`-valued
function returning `none`.
-/

/-- One entry of the `errors` list of a bulk-write response
(`src/utils.py:36-38`).  `elementErrors` holds the already-extracted
`error["elementErrors"]["errors"]` mapping as an insertion-ordered
association list; the Python double `.get(..., {})` default only means
this mapping may be empty. -/
structure ErrorEntry where
  failedElementNumber : Nat
  elementErrors : List (String × String)
deriving DecidableEq, Repr

/-- One entry of the `issues` list of a bulk-write response: the code
reads only `issue["key"]` (`src/utils.py:59`). -/
structure CreatedIssue where
  key : String
deriving DecidableEq, Repr

/-- A bulk-write API response. `none` models an absent `"errors"` /
`"issues"` key, which `api_response.get(..., [])` defaults to `[]`
(`src/utils.py:36-39`). -/
structure BulkResponse where
  errors : Option (List ErrorEntry) := none
  issues : Option (List CreatedIssue) := none
deriving DecidableEq, Repr

/-- One row of the input dataframe: its pre-existing cells (column name,
value) and the two derived annotation columns, `none` when the row has
not been annotated. -/
structure Row where
  cells : List (String × String)
  load_success : Option Bool := none
  load_result : Option String := none
deriving DecidableEq, Repr

/-- Python `"; ".join(items)`. -/
def joinSemicolon : List String → String
  | [] => ""
  | [x] => x
  | x :: xs => x ++ "; " ++ joinSemicolon xs

/-- The `"; "`-joined `f"{k}: {v}"` pairs of an error's `elementErrors`
mapping (`src/utils.py:46-51`). -/
def errorMessages (e : ErrorEntry) : String :=
  joinSemicolon (e.elementErrors.map (fun kv => kv.1 ++ ": " ++ kv.2))

/-- `error_messages or "Unknown error"` (`src/utils.py:53`): the joined
string, or the literal `"Unknown error"` when it is empty (falsy). -/
def errorResult (e : ErrorEntry) : String :=
  if errorMessages e = "" then "Unknown error" else errorMessages e

/-- Lookup in the error dict `{error["failedElementNumber"]: error for
error in ...}` (`src/utils.py:36-38`): a Python dict comprehension keeps
the last entry for a duplicated key, hence the reversed search. -/
def findError (errors : List ErrorEntry) (i : Nat) : Option ErrorEntry :=
  errors.reverse.find? (fun e => e.failedElementNumber == i)

/-- The row loop of `update_input_dataframe` (`src/utils.py:42-62`):
`i` is the current row index, `iss` the unread rest of the `issues`
iterator.  An error row is annotated from the error mapping without
touching the iterator; otherwise the next issue is consumed, and on
`StopIteration` the loop breaks, leaving this row and all later rows
untouched. -/
def updateRowsAux (errors : List ErrorEntry) :
    List Row → Nat → List CreatedIssue → List Row
  | [], _, _ => []
  | r :: rs, i, iss =>
    match findError errors i with
    | some e =>
      { r with load_success := some false, load_result := some (errorResult e) }
        :: updateRowsAux errors rs (i + 1) iss
    | none =>
      match iss with
      | [] => r :: rs
      | issue :: rest =>
        { r with load_success := some true, load_result := some issue.key }
          :: updateRowsAux errors rs (i + 1) rest

/-- `update_input_dataframe` (`src/utils.py:8-64`). -/
def update_input_dataframe (rows : List Row) (resp : BulkResponse) : List Row :=
  updateRowsAux (resp.errors.getD []) rows 0 (resp.issues.getD [])

/-- Number of rows the reconciliation loop annotates before it returns
(the first truncation point): every row strictly before this count gets
a status, every row from it on is left untouched. -/
def processedCount (errors : List ErrorEntry) :
    List Row → Nat → List CreatedIssue → Nat
  | [], _, _ => 0
  | _ :: rs, i, iss =>
    match findError errors i with
    | some _ => processedCount errors rs (i + 1) iss + 1
    | none =>
      match iss with
      | [] => 0
      | _ :: rest => processedCount errors rs (i + 1) rest + 1

/-- The first truncation point of `update_input_dataframe` on a given
input. -/
def firstTruncation (rows : List Row) (resp : BulkResponse) : Nat :=
  processedCount (resp.errors.getD []) rows 0 (resp.issues.getD [])

example :
    update_input_dataframe
      [⟨[("id", "1")], none, none⟩, ⟨[("id", "2")], none, none⟩,
       ⟨[("id", "3")], none, none⟩]
      ⟨some [⟨2, []⟩], some [⟨"ABC-123"⟩, ⟨"DEF-456"⟩]⟩ =
      [⟨[("id", "1")], some true, some "ABC-123"⟩,
       ⟨[("id", "2")], some true, some "DEF-456"⟩,
       ⟨[("id", "3")], some false, some "Unknown error"⟩] := by decide

/-- The `fields` mapping of a tracked object, restricted to the fields
the core reads: the `updated` timestamp string, and the optional
`project` / user-bearing members, `none` modelling an absent or falsy
value (`issue.get("fields").get(...)` followed by a truthiness test). -/
structure Fields where
  updated : String
  project : Option String := none
  assignee : Option String := none
  reporter : Option String := none
  approvals : Option String := none
  voter : Option String := none
  watcher : Option String := none
deriving DecidableEq, Repr

/-- A tracked object ("issue"-like record) from a read response. -/
structure Issue where
  fields : Fields
deriving DecidableEq, Repr

/-- A read-query response: `response.get("issues", [])`
(`src/utils.py:82`). -/
structure SearchResponse where
  issues : List Issue
deriving DecidableEq, Repr

/-- The strictly-greater watermark replacement step of the extraction
loops (`src/utils.py:89-90`, `109-110`, `131-132`).  Python's `<` on
strings is lexicographic comparison of the code-point sequences,
embedded here as `<` on the strings' character lists (Mathlib's
`String.lt_iff_toList_lt` identifies this with `<` on `String`). -/
def maxStep (acc : String) (issue : Issue) : String :=
  if acc.data < issue.fields.updated.data then issue.fields.updated else acc

/-- `extract_issues_from_response` (`src/utils.py:72-92`): the watermark
starts at `""`, and when the list is non-empty (`if issues:`) it is
re-seeded with the last element's `fields.updated` and the scan replaces
it by every strictly greater value. -/
def extract_issues_from_response (response : SearchResponse) :
    List Issue × String :=
  let issues := response.issues
  let latest_updated_date := ""
  let latest_updated_date :=
    match issues.getLast? with
    | some last => issues.foldl maxStep last.fields.updated
    | none => latest_updated_date
  (issues, latest_updated_date)

/-- One iteration of the `extract_projects_from_issues` loop
(`src/utils.py:108-113`): update the watermark, then append the
`fields.project` value when it is truthy. -/
def projectStep (acc : List String × String) (issue : Issue) :
    List String × String :=
  let latest := maxStep acc.2 issue
  match issue.fields.project with
  | some project => (acc.1 ++ [project], latest)
  | none => (acc.1, latest)

/-- `extract_projects_from_issues` (`src/utils.py:95-114`): `none`
models the `IndexError` of `issues[-1]` on an empty list; otherwise one
pass maintains the watermark and appends each truthy `fields.project`. -/
def extract_projects_from_issues (issues : List Issue) :
    Option (List String × String) :=
  match issues.getLast? with
  | none => none
  | some last => some (issues.foldl projectStep ([], last.fields.updated))

/-- The five user-bearing fields of an issue, in the order the source
iterates them (`src/utils.py:133`). -/
def userFields (f : Fields) : List (Option String) :=
  [f.assignee, f.reporter, f.approvals, f.voter, f.watcher]

/-- The inner field loop of `extract_users_from_issues`
(`src/utils.py:133-136`): append each truthy user value. -/
def appendUsers (us : List String) (fields : List (Option String)) :
    List String :=
  fields.foldl
    (fun acc user =>
      match user with
      | some u => acc ++ [u]
      | none => acc)
    us

/-- One iteration of the `extract_users_from_issues` outer loop
(`src/utils.py:130-136`). -/
def userStep (acc : List String × String) (issue : Issue) :
    List String × String :=
  let latest := maxStep acc.2 issue
  (appendUsers acc.1 (userFields issue.fields), latest)

/-- `extract_users_from_issues` (`src/utils.py:117-137`): `none` models
the `IndexError` of `issues[-1]` on an empty list; otherwise one pass
maintains the watermark and appends, per issue, each truthy value among
the five user-bearing fields in their fixed order. -/
def extract_users_from_issues (issues : List Issue) :
    Option (List String × String) :=
  match issues.getLast? with
  | none => none
  | some last => some (issues.foldl userStep ([], last.fields.updated))

/-- `convert_date` (`src/utils.py:68-69`): the first ten characters of
the date string. -/
def convert_date (date_str : String) : String :=
  (date_str.toList.take 10).asString

/-- A `RECORD_DATA` payload of the output dataframe: an issue object, a
project object or a user object. -/
inductive RecordData where
  | issue (i : Issue)
  | project (p : String)
  | user (u : String)
deriving DecidableEq, Repr

/-- `generate_output_dataframe` (`src/utils.py:140-176`): three
successive append loops over issues, projects and users, each row a
`(OBJECT_NAME, RECORD_DATA)` pair. -/
def generate_output_dataframe (issues : List Issue) (projects : List String)
    (users : List String) : List (String × RecordData) :=
  let data : List (String × RecordData) := []
  let data := issues.foldl (fun d i => d ++ [("issues", RecordData.issue i)]) data
  let data := projects.foldl (fun d p => d ++ [("projects", RecordData.project p)]) data
  let data := users.foldl (fun d u => d ++ [("users", RecordData.user u)]) data
  data

/-- A decoded JSON value, enough for the issue-creation payload. -/
inductive Json where
  | str (s : String)
  | num (n : Nat)
  | arr (elems : List Json)
  | obj (entries : List (String × Json))

/-- One input row for bulk creation: the three columns
`_create_issue_data` reads (`src/jira_api.py:154` reads `description`,
`148` `summary`, `164` `issuetype`). -/
structure InputRow where
  summary : String
  description : String
  issuetype : String
deriving DecidableEq, Repr

/-- `JiraAPIConsumer._create_issue_data` (`src/jira_api.py:133-166`):
the nested bulk-create payload for one row, entries in the source's
literal order. -/
def create_issue_data (row : InputRow) (project_key : String) : Json :=
  Json.obj [("fields", Json.obj
    [("project", Json.obj [("key", Json.str project_key)]),
     ("summary", Json.str row.summary),
     ("description", Json.obj
       [("content", Json.arr [Json.obj
          [("content", Json.arr [Json.obj
             [("text", Json.str row.description),
              ("type", Json.str "text")]]),
           ("type", Json.str "paragraph")]]),
        ("type", Json.str "doc"),
        ("version", Json.num 1)]),
     ("issuetype", Json.obj [("name", Json.str row.issuetype)])])]

/-- Key lookup in a JSON object (first occurrence; the payloads built
here have distinct keys). -/
def Json.getKey : Json → String → Option Json
  | Json.obj entries, k => (entries.find? (fun e => e.1 == k)).map Prod.snd
  | _, _ => none

/-- Index lookup in a JSON array. -/
def Json.getIdx : Json → Nat → Option Json
  | Json.arr l, i => l[i]?
  | _, _ => none

/-- The string carried by a JSON string node. -/
def Json.asStr : Json → Option String
  | Json.str s => some s
  | _ => none

/-- Reading `fields.summary` back out of a bulk-create payload. -/
def readSummary (j : Json) : Option String :=
  (j.getKey "fields").bind fun f => (f.getKey "summary").bind Json.asStr

/-- Reading the text of the single text node under
`fields.description.content[0].content[0]` back out of a bulk-create
payload. -/
def readDescription (j : Json) : Option String :=
  (j.getKey "fields").bind fun f =>
  (f.getKey "description").bind fun d =>
  (d.getKey "content").bind fun c =>
  (c.getIdx 0).bind fun p =>
  (p.getKey "content").bind fun pc =>
  (pc.getIdx 0).bind fun t =>
  (t.getKey "text").bind Json.asStr

example :
    (extract_issues_from_response
      ⟨[⟨⟨"2021-09-02T00:00:00.000+0000", none, none, none, none, none, none⟩⟩,
        ⟨⟨"2021-09-01T00:00:00.000+0000", none, none, none, none, none, none⟩⟩]⟩).2 =
      "2021-09-02T00:00:00.000+0000" := by decide

example :
    readSummary (create_issue_data ⟨"s", "d", "Task"⟩ "PROJ") = some "s" := by decide

example : convert_date "2021-09-01T00:00:00.000+0000" = "2021-09-01" := by decide

/-! ## Helper lemmas -/

theorem joinSemicolon_cons_ne_empty (x : String) (xs : List String)
    (hx : x.length ≠ 0) : joinSemicolon (x :: xs) ≠ "" := by
  cases xs with
  | nil =>
    intro h
    exact hx (by simpa using congrArg String.length h)
  | cons y ys =>
    intro h
    have hlen := congrArg String.length h
    simp only [joinSemicolon, String.length_append, String.length_empty] at hlen
    omega

theorem errorMessages_ne_empty (e : ErrorEntry) (h : e.elementErrors ≠ []) :
    errorMessages e ≠ "" := by
  unfold errorMessages
  cases he : e.elementErrors with
  | nil => exact absurd he h
  | cons kv l =>
    simp only [List.map_cons]
    apply joinSemicolon_cons_ne_empty
    have h2 : (": " : String).length = 2 := rfl
    simp only [String.length_append, h2]
    omega

theorem errorResult_of_ne_nil (e : ErrorEntry) (h : e.elementErrors ≠ []) :
    errorResult e = errorMessages e := by
  unfold errorResult
  rw [if_neg (errorMessages_ne_empty e h)]

theorem updateRowsAux_cons (errors : List ErrorEntry) (r : Row)
    (rs : List Row) (i : Nat) (iss : List CreatedIssue) :
    updateRowsAux errors (r :: rs) i iss =
      match findError errors i with
      | some e =>
        { r with load_success := some false, load_result := some (errorResult e) }
          :: updateRowsAux errors rs (i + 1) iss
      | none =>
        match iss with
        | [] => r :: rs
        | issue :: rest =>
          { r with load_success := some true, load_result := some issue.key }
            :: updateRowsAux errors rs (i + 1) rest := rfl

theorem processedCount_cons (errors : List ErrorEntry) (r : Row)
    (rs : List Row) (i : Nat) (iss : List CreatedIssue) :
    processedCount errors (r :: rs) i iss =
      match findError errors i with
      | some _ => processedCount errors rs (i + 1) iss + 1
      | none =>
        match iss with
        | [] => 0
        | _ :: rest => processedCount errors rs (i + 1) rest + 1 := rfl

/-! ## Claims -/

/-- Claim C1 counterexample: with two rows, a single error keyed to
position 1 and an empty success list, the loop stops at row 0 (non-error
row, exhausted cursor), so row 1 — although a key of the error mapping —
is left unannotated: its `load_success` is not set to `false`, refuting
the claim's unqualified "for every row position i that is a key of the
error mapping". -/
theorem update_error_row_unreached :
    update_input_dataframe
        [⟨[("id", "1")], none, none⟩, ⟨[("id", "2")], none, none⟩]
        ⟨some [⟨1, [("summary", "bad")]⟩], some []⟩ =
      [⟨[("id", "1")], none, none⟩, ⟨[("id", "2")], none, none⟩]
    ∧ findError [⟨1, [("summary", "bad")]⟩] 1 = some ⟨1, [("summary", "bad")]⟩
    ∧ ((update_input_dataframe
        [⟨[("id", "1")], none, none⟩, ⟨[("id", "2")], none, none⟩]
        ⟨some [⟨1, [("summary", "bad")]⟩], some []⟩).getD 1
          ⟨[], none, none⟩).load_success ≠ some false := by
  decide

/-- Claim C1 as amended: when the reconciliation loop reaches a row
whose position is a key of the error mapping, it annotates that row with
`load_success = false` and `load_result = errorResult`, where
`errorResult` is the `"; "`-joined `"field: message"` pairs of the
error's `elementErrors` mapping in insertion order, or the literal
`"Unknown error"` when that mapping is empty; and the unread success
iterator passed on to the remaining rows is exactly the one the row was
reached with — an error row never consumes a success element. -/
theorem update_error_row_spec (errors : List ErrorEntry) (e : ErrorEntry)
    (r : Row) (rs : List Row) (i : Nat) (iss : List CreatedIssue)
    (h : findError errors i = some e) :
    updateRowsAux errors (r :: rs) i iss =
      { r with load_success := some false, load_result := some (errorResult e) }
        :: updateRowsAux errors rs (i + 1) iss
    ∧ (e.elementErrors = [] → errorResult e = "Unknown error")
    ∧ (e.elementErrors ≠ [] → errorResult e =
        joinSemicolon (e.elementErrors.map (fun kv => kv.1 ++ ": " ++ kv.2))) := by
  refine ⟨?_, ?_, ?_⟩
  · rw [updateRowsAux_cons, h]
  · intro h0
    unfold errorResult errorMessages
    rw [h0]
    rfl
  · exact errorResult_of_ne_nil e

theorem update_error_row_spec_witness :
    findError [⟨0, [("summary", "too long")]⟩] 0 =
      some ⟨0, [("summary", "too long")]⟩
    ∧ (updateRowsAux [⟨0, [("summary", "too long")]⟩]
        [⟨[("id", "1")], none, none⟩] 0 [⟨"X-1"⟩] =
        { cells := [("id", "1")], load_success := some false,
          load_result := some (errorResult ⟨0, [("summary", "too long")]⟩) }
          :: updateRowsAux [⟨0, [("summary", "too long")]⟩] [] 1 [⟨"X-1"⟩]
      ∧ ((⟨0, [("summary", "too long")]⟩ : ErrorEntry).elementErrors = [] →
          errorResult ⟨0, [("summary", "too long")]⟩ = "Unknown error")
      ∧ ((⟨0, [("summary", "too long")]⟩ : ErrorEntry).elementErrors ≠ [] →
          errorResult ⟨0, [("summary", "too long")]⟩ =
            joinSemicolon ((⟨0, [("summary", "too long")]⟩ : ErrorEntry).elementErrors.map
              (fun kv => kv.1 ++ ": " ++ kv.2)))) :=
  ⟨by decide,
   update_error_row_spec [⟨0, [("summary", "too long")]⟩]
     ⟨0, [("summary", "too long")]⟩ ⟨[("id", "1")], none, none⟩ [] 0 [⟨"X-1"⟩]
     (by decide)⟩

/-- Five unannotated input rows for the success-exhaustion scenario. -/
def rowsFive : List Row :=
  [⟨[("id", "1")], none, none⟩, ⟨[("id", "2")], none, none⟩,
   ⟨[("id", "3")], none, none⟩, ⟨[("id", "4")], none, none⟩,
   ⟨[("id", "5")], none, none⟩]

/-- A bulk-write response with zero errors and three created issues. -/
def respThree : BulkResponse :=
  ⟨some [], some [⟨"K-1"⟩, ⟨"K-2"⟩, ⟨"K-3"⟩]⟩

/-- Claim C2: when the reconciliation loop reaches a non-error row with
the success iterator exhausted, it stops entirely and that row and all
later rows come back untouched (no default status is written); in the
concrete 5-rows / 0-errors / 3-issues scenario, rows 0-2 get
`load_success = true` with the respective issue keys in order and rows
3-4 carry no annotation at all. -/
theorem update_exhaustion_stops (errors : List ErrorEntry) (r : Row)
    (rs : List Row) (i : Nat) (h : findError errors i = none) :
    updateRowsAux errors (r :: rs) i [] = r :: rs
    ∧ update_input_dataframe rowsFive respThree =
      [⟨[("id", "1")], some true, some "K-1"⟩,
       ⟨[("id", "2")], some true, some "K-2"⟩,
       ⟨[("id", "3")], some true, some "K-3"⟩,
       ⟨[("id", "4")], none, none⟩, ⟨[("id", "5")], none, none⟩] := by
  constructor
  · rw [updateRowsAux_cons, h]
  · decide

theorem update_exhaustion_stops_witness :
    findError [] 0 = none
    ∧ (updateRowsAux [] [⟨[("id", "9")], none, none⟩] 0 [] =
        [⟨[("id", "9")], none, none⟩]
      ∧ update_input_dataframe rowsFive respThree =
        [⟨[("id", "1")], some true, some "K-1"⟩,
         ⟨[("id", "2")], some true, some "K-2"⟩,
         ⟨[("id", "3")], some true, some "K-3"⟩,
         ⟨[("id", "4")], none, none⟩, ⟨[("id", "5")], none, none⟩]) :=
  ⟨by decide,
   update_exhaustion_stops [] ⟨[("id", "9")], none, none⟩ [] 0 (by decide)⟩

/-- Claim C6: on empty input the three extractors disagree: the
plain-issue extractor guards the empty list and returns it with the
empty-string watermark, while the project and user extractors fail with
an index error (modelled as `none`) looking up the last element. -/
theorem extractors_empty_input :
    extract_issues_from_response ⟨[]⟩ = ([], "")
    ∧ extract_projects_from_issues [] = none
    ∧ extract_users_from_issues [] = none :=
  ⟨rfl, rfl, rfl⟩

/-- Claim C9: the bulk-create payload built from an input row has
exactly the nested shape `{fields: {project: {key}, summary,
description: {type: "doc", version: 1, content: [{type: "paragraph",
content: [{type: "text", text}]}]}, issuetype: {name}}}`, and parsing it
back (reading `fields.summary` and the text of the single text node
under `fields.description.content[0].content[0]`) recovers the summary
and description strings that were put in. -/
theorem create_issue_data_roundtrip (row : InputRow) (pk : String) :
    create_issue_data row pk =
      Json.obj [("fields", Json.obj
        [("project", Json.obj [("key", Json.str pk)]),
         ("summary", Json.str row.summary),
         ("description", Json.obj
           [("content", Json.arr [Json.obj
              [("content", Json.arr [Json.obj
                 [("text", Json.str row.description),
                  ("type", Json.str "text")]]),
               ("type", Json.str "paragraph")]]),
            ("type", Json.str "doc"),
            ("version", Json.num 1)]),
         ("issuetype", Json.obj [("name", Json.str row.issuetype)])])]
    ∧ readSummary (create_issue_data row pk) = some row.summary
    ∧ readDescription (create_issue_data row pk) = some row.description
    ∧ ((create_issue_data row pk).getKey "fields").bind
        (fun f => (f.getKey "project").bind (fun p => p.getKey "key")) =
      some (Json.str pk)
    ∧ ((create_issue_data row pk).getKey "fields").bind
        (fun f => (f.getKey "issuetype").bind (fun t => t.getKey "name")) =
      some (Json.str row.issuetype)
    ∧ ((create_issue_data row pk).getKey "fields").bind
        (fun f => (f.getKey "description").bind (fun d => d.getKey "type")) =
      some (Json.str "doc")
    ∧ ((create_issue_data row pk).getKey "fields").bind
        (fun f => (f.getKey "description").bind (fun d => d.getKey "version")) =
      some (Json.num 1) :=
  ⟨rfl, rfl, rfl, rfl, rfl, rfl, rfl⟩

theorem find_first_eq_head_filter {α : Type} (p : α → Bool) (l : List α) :
    l.find? p = (l.filter p).head? := by
  induction l with
  | nil => rfl
  | cons x xs ih =>
    cases hx : p x with
    | true =>
      rw [List.find?_cons_of_pos xs hx, List.filter_cons_of_pos hx]
      rfl
    | false =>
      rw [List.find?_cons_of_neg xs (by simp [hx]),
          List.filter_cons_of_neg (by simp [hx])]
      exact ih

theorem findError_eq_getLast_filter (errors : List ErrorEntry) (i : Nat) :
    findError errors i =
      (errors.filter (fun e => e.failedElementNumber == i)).getLast? := by
  unfold findError
  rw [find_first_eq_head_filter, List.filter_reverse, List.head?_reverse]

/-- Two error entries sharing `failedElementNumber` 0, for the
duplicate-key witness. -/
def dupErrors : List ErrorEntry :=
  [⟨0, [("summary", "first")]⟩, ⟨0, [("summary", "second")]⟩]

/-- Claim C10: for every row list, a response with the errors key absent
reconciles exactly as one with an empty errors list, one with the issues
key absent exactly as one with an empty issues list, and with both keys
absent every table comes back unchanged (length-preserving identity);
and for every errors list the error mapping built by the dict
comprehension keeps only the last entry with a given
`failedElementNumber` — `findError` is the last matching entry — so
whenever the last duplicate for a reached position `i` is `e`, the row
there is annotated from `e`. -/
theorem update_missing_keys_and_duplicates (rows : List Row)
    (errs : List ErrorEntry) (iss : List CreatedIssue) (r : Row)
    (rs : List Row) (i : Nat) (iss2 : List CreatedIssue) (e : ErrorEntry)
    (hlast : (errs.filter (fun x => x.failedElementNumber == i)).getLast? =
      some e) :
    update_input_dataframe rows ⟨none, some iss⟩ =
      update_input_dataframe rows ⟨some [], some iss⟩
    ∧ update_input_dataframe rows ⟨some errs, none⟩ =
      update_input_dataframe rows ⟨some errs, some []⟩
    ∧ update_input_dataframe rows ⟨none, none⟩ = rows
    ∧ findError errs i =
        (errs.filter (fun x => x.failedElementNumber == i)).getLast?
    ∧ updateRowsAux errs (r :: rs) i iss2 =
        { r with load_success := some false,
                 load_result := some (errorResult e) }
          :: updateRowsAux errs rs (i + 1) iss2
    ∧ update_input_dataframe [⟨[("id", "1")], none, none⟩]
        ⟨some dupErrors, some []⟩ =
      [⟨[("id", "1")], some false, some "summary: second"⟩] := by
  refine ⟨rfl, rfl, ?_, findError_eq_getLast_filter errs i, ?_, by decide⟩
  · cases rows with
    | nil => rfl
    | cons r0 rs0 => rfl
  · have hf : findError errs i = some e := by
      rw [findError_eq_getLast_filter]
      exact hlast
    rw [updateRowsAux_cons, hf]

theorem update_missing_keys_and_duplicates_witness :
    (dupErrors.filter (fun x => x.failedElementNumber == 0)).getLast? =
      some ⟨0, [("summary", "second")]⟩
    ∧ (update_input_dataframe [⟨[("id", "7")], none, none⟩]
         ⟨none, some [⟨"K-9"⟩]⟩ =
        update_input_dataframe [⟨[("id", "7")], none, none⟩]
         ⟨some [], some [⟨"K-9"⟩]⟩
      ∧ update_input_dataframe [⟨[("id", "7")], none, none⟩]
          ⟨some dupErrors, none⟩ =
        update_input_dataframe [⟨[("id", "7")], none, none⟩]
          ⟨some dupErrors, some []⟩
      ∧ update_input_dataframe [⟨[("id", "7")], none, none⟩] ⟨none, none⟩ =
        [⟨[("id", "7")], none, none⟩]
      ∧ findError dupErrors 0 =
          (dupErrors.filter (fun x => x.failedElementNumber == 0)).getLast?
      ∧ updateRowsAux dupErrors (⟨[("id", "8")], none, none⟩ :: []) 0 [] =
          { cells := [("id", "8")], load_success := some false,
            load_result := some (errorResult ⟨0, [("summary", "second")]⟩) }
            :: updateRowsAux dupErrors [] (0 + 1) []
      ∧ update_input_dataframe [⟨[("id", "1")], none, none⟩]
          ⟨some dupErrors, some []⟩ =
        [⟨[("id", "1")], some false, some "summary: second"⟩]) :=
  ⟨by decide,
   update_missing_keys_and_duplicates [⟨[("id", "7")], none, none⟩]
     dupErrors [⟨"K-9"⟩] ⟨[("id", "8")], none, none⟩ [] 0 []
     ⟨0, [("summary", "second")]⟩ (by decide)⟩

theorem updateRowsAux_length (errors : List ErrorEntry) (rows : List Row) :
    ∀ (i : Nat) (iss : List CreatedIssue),
      (updateRowsAux errors rows i iss).length = rows.length := by
  induction rows with
  | nil => intro i iss; rfl
  | cons r rs ih =>
    intro i iss
    rw [updateRowsAux_cons]
    cases h : findError errors i with
    | some e => simp [ih]
    | none =>
      cases iss with
      | nil => rfl
      | cons x xs => simp [ih]

theorem updateRowsAux_cells (errors : List ErrorEntry) (rows : List Row) :
    ∀ (i : Nat) (iss : List CreatedIssue),
      (updateRowsAux errors rows i iss).map Row.cells = rows.map Row.cells := by
  induction rows with
  | nil => intro i iss; rfl
  | cons r rs ih =>
    intro i iss
    rw [updateRowsAux_cons]
    cases h : findError errors i with
    | some e => simp [ih]
    | none =>
      cases iss with
      | nil => rfl
      | cons x xs => simp [ih]

theorem updateRowsAux_status (errors : List ErrorEntry) (rows : List Row) :
    ∀ (i : Nat) (iss : List CreatedIssue) (j : Nat),
      j < processedCount errors rows i iss →
      ((updateRowsAux errors rows i iss).getD j
        ⟨[], none, none⟩).load_success.isSome = true := by
  induction rows with
  | nil =>
    intro i iss j h
    simp [processedCount] at h
  | cons r rs ih =>
    intro i iss j h
    rw [processedCount_cons] at h
    rw [updateRowsAux_cons]
    cases he : findError errors i with
    | some e =>
      simp only [he] at h
      cases j with
      | zero => rfl
      | succ k =>
        simp only [List.getD_cons_succ]
        exact ih (i + 1) iss k (Nat.lt_of_succ_lt_succ h)
    | none =>
      cases iss with
      | nil =>
        simp only [he] at h
        exact absurd h (Nat.not_lt_zero j)
      | cons x xs =>
        simp only [he] at h
        cases j with
        | zero => rfl
        | succ k =>
          simp only [List.getD_cons_succ]
          exact ih (i + 1) xs k (Nat.lt_of_succ_lt_succ h)

/-- Claim C3: reconciliation returns a table of exactly the input's
length, leaves every pre-existing cell of every row unchanged (the only
mutation is the two derived annotation columns), and every position
strictly before the first truncation point has a status set. -/
theorem update_frame_invariants (rows : List Row) (resp : BulkResponse) :
    (update_input_dataframe rows resp).length = rows.length
    ∧ (update_input_dataframe rows resp).map Row.cells = rows.map Row.cells
    ∧ ∀ j, j < firstTruncation rows resp →
        ((update_input_dataframe rows resp).getD j
          ⟨[], none, none⟩).load_success.isSome = true :=
  ⟨updateRowsAux_length _ rows 0 _, updateRowsAux_cells _ rows 0 _,
   fun j h => updateRowsAux_status _ rows 0 _ j h⟩

theorem update_frame_invariants_witness :
    0 < firstTruncation rowsFive respThree
    ∧ ((update_input_dataframe rowsFive respThree).getD 0
        ⟨[], none, none⟩).load_success.isSome = true :=
  ⟨by decide, (update_frame_invariants rowsFive respThree).2.2 0 (by decide)⟩

theorem le_maxStep_left (a : String) (x : Issue) : a ≤ maxStep a x := by
  unfold maxStep
  split
  · next hlt =>
    rw [String.le_iff_toList_le]
    exact le_of_lt hlt
  · exact le_refl a

theorem le_maxStep_right (a : String) (x : Issue) :
    x.fields.updated ≤ maxStep a x := by
  unfold maxStep
  split
  · exact le_refl _
  · next hnlt =>
    rw [String.le_iff_toList_le]
    exact not_lt.mp hnlt

theorem seed_le_foldl_maxStep (l : List Issue) :
    ∀ a : String, a ≤ l.foldl maxStep a := by
  induction l with
  | nil => intro a; exact le_refl a
  | cons x xs ih =>
    intro a
    exact le_trans (le_maxStep_left a x) (ih (maxStep a x))

theorem mem_le_foldl_maxStep (l : List Issue) :
    ∀ (a : String) (u : Issue), u ∈ l →
      u.fields.updated ≤ l.foldl maxStep a := by
  induction l with
  | nil => intro a u hu; exact absurd hu (List.not_mem_nil u)
  | cons x xs ih =>
    intro a u hu
    rcases List.mem_cons.mp hu with h | h
    · subst h
      exact le_trans (le_maxStep_right a u) (seed_le_foldl_maxStep xs (maxStep a u))
    · exact ih (maxStep a x) u h

theorem foldl_maxStep_mem (l : List Issue) :
    ∀ a : String,
      l.foldl maxStep a = a ∨
      l.foldl maxStep a ∈ l.map (fun u => u.fields.updated) := by
  induction l with
  | nil => intro a; exact Or.inl rfl
  | cons x xs ih =>
    intro a
    rcases ih (maxStep a x) with h | h
    · rw [List.foldl_cons, h]
      unfold maxStep
      split
      · exact Or.inr (List.mem_map.mpr ⟨x, List.mem_cons_self x xs, rfl⟩)
      · exact Or.inl rfl
    · exact Or.inr (List.mem_cons_of_mem _ (by simpa using h))

theorem extract_issues_snd_eq (resp : SearchResponse)
    (h : resp.issues ≠ []) :
    (extract_issues_from_response resp).snd =
      resp.issues.foldl maxStep (resp.issues.getLast h).fields.updated := by
  show (match resp.issues.getLast? with
        | some last => List.foldl maxStep last.fields.updated resp.issues
        | none => "") =
    List.foldl maxStep (resp.issues.getLast h).fields.updated resp.issues
  rw [List.getLast?_eq_getLast _ h]

theorem extract_snd_mem (resp : SearchResponse) (h : resp.issues ≠ []) :
    (extract_issues_from_response resp).snd ∈
      resp.issues.map (fun u => u.fields.updated) := by
  rw [extract_issues_snd_eq resp h]
  rcases foldl_maxStep_mem resp.issues (resp.issues.getLast h).fields.updated
    with heq | hmem
  · rw [heq]
    exact List.mem_map.mpr ⟨resp.issues.getLast h, List.getLast_mem h, rfl⟩
  · exact hmem

theorem extract_snd_ub (resp : SearchResponse) (h : resp.issues ≠ []) :
    ∀ u ∈ resp.issues,
      u.fields.updated ≤ (extract_issues_from_response resp).snd := by
  intro u hu
  rw [extract_issues_snd_eq resp h]
  exact mem_le_foldl_maxStep resp.issues _ u hu

/-- Claim C4: for a non-empty issue list, the watermark returned by
`extract_issues_from_response` is the maximum of the nested
`fields.updated` values under string (lexical) comparison: it is one of
those values and it bounds them all from above. -/
theorem extract_watermark_is_max (resp : SearchResponse)
    (h : resp.issues ≠ []) :
    (extract_issues_from_response resp).snd ∈
      resp.issues.map (fun u => u.fields.updated)
    ∧ ∀ u ∈ resp.issues,
        u.fields.updated ≤ (extract_issues_from_response resp).snd :=
  ⟨extract_snd_mem resp h, extract_snd_ub resp h⟩

/-- A first concrete issue for the watermark witnesses. -/
def issueA : Issue := ⟨⟨"2021-09-01T00:00:00.000+0000", none, none, none, none, none, none⟩⟩

/-- A second concrete issue for the watermark witnesses. -/
def issueB : Issue := ⟨⟨"2021-09-02T00:00:00.000+0000", none, none, none, none, none, none⟩⟩

theorem extract_watermark_is_max_witness :
    (⟨[issueB, issueA]⟩ : SearchResponse).issues ≠ []
    ∧ ((extract_issues_from_response ⟨[issueB, issueA]⟩).snd ∈
        (⟨[issueB, issueA]⟩ : SearchResponse).issues.map (fun u => u.fields.updated)
      ∧ ∀ u ∈ (⟨[issueB, issueA]⟩ : SearchResponse).issues,
          u.fields.updated ≤ (extract_issues_from_response ⟨[issueB, issueA]⟩).snd) :=
  ⟨by decide, extract_watermark_is_max ⟨[issueB, issueA]⟩ (by decide)⟩

/-- Claim C5: for permutations of a fixed non-empty issue collection the
extracted watermark is one and the same value, namely the lexical
maximum of all `updated` values present — extraction is independent of
input order. -/
theorem extract_watermark_perm_invariant (r₁ r₂ : SearchResponse)
    (hp : r₁.issues.Perm r₂.issues) (h : r₁.issues ≠ []) :
    (extract_issues_from_response r₁).snd =
      (extract_issues_from_response r₂).snd
    ∧ (extract_issues_from_response r₁).snd ∈
        r₁.issues.map (fun u => u.fields.updated)
    ∧ ∀ u ∈ r₁.issues,
        u.fields.updated ≤ (extract_issues_from_response r₁).snd := by
  have h₂ : r₂.issues ≠ [] := by
    intro hn
    exact h (List.Perm.eq_nil (hn ▸ hp))
  have m₁ := extract_snd_mem r₁ h
  have m₂ := extract_snd_mem r₂ h₂
  have ub₁ := extract_snd_ub r₁ h
  have ub₂ := extract_snd_ub r₂ h₂
  refine ⟨?_, m₁, ub₁⟩
  obtain ⟨u₁, hu₁, he₁⟩ := List.mem_map.mp m₁
  obtain ⟨u₂, hu₂, he₂⟩ := List.mem_map.mp m₂
  apply le_antisymm
  · rw [← he₁]
    exact ub₂ u₁ (hp.mem_iff.mp hu₁)
  · rw [← he₂]
    exact ub₁ u₂ (hp.mem_iff.mpr hu₂)

theorem extract_watermark_perm_invariant_witness :
    ((⟨[issueA, issueB]⟩ : SearchResponse).issues.Perm
      (⟨[issueB, issueA]⟩ : SearchResponse).issues
     ∧ (⟨[issueA, issueB]⟩ : SearchResponse).issues ≠ [])
    ∧ ((extract_issues_from_response ⟨[issueA, issueB]⟩).snd =
        (extract_issues_from_response ⟨[issueB, issueA]⟩).snd
      ∧ (extract_issues_from_response ⟨[issueA, issueB]⟩).snd ∈
          (⟨[issueA, issueB]⟩ : SearchResponse).issues.map (fun u => u.fields.updated)
      ∧ ∀ u ∈ (⟨[issueA, issueB]⟩ : SearchResponse).issues,
          u.fields.updated ≤ (extract_issues_from_response ⟨[issueA, issueB]⟩).snd) :=
  ⟨⟨List.Perm.swap issueB issueA [], by decide⟩,
   extract_watermark_perm_invariant ⟨[issueA, issueB]⟩ ⟨[issueB, issueA]⟩
     (List.Perm.swap issueB issueA []) (by decide)⟩

theorem foldl_append_singleton {α β : Type} (f : α → β) (l : List α) :
    ∀ init : List β,
      l.foldl (fun d x => d ++ [f x]) init = init ++ l.map f := by
  induction l with
  | nil => intro init; simp
  | cons x xs ih => intro init; simp [ih]

/-- A first concrete issue payload for the normalization example. -/
def issueN1 : Issue := ⟨⟨"2021-01-01", none, none, none, none, none, none⟩⟩

/-- A second concrete issue payload for the normalization example. -/
def issueN2 : Issue := ⟨⟨"2021-01-02", none, none, none, none, none, none⟩⟩

/-- Claim C7: normalization emits exactly all issues tagged `issues`,
then all projects tagged `projects`, then all users tagged `users`, each
block in input order, with no deduplication, sorting, filtering or
interleaving — a straight tagged concatenation; in particular for
`issues=[i1,i2]`, `projects=[p1]`, `users=[u1,u2]` the output is exactly
the five tagged pairs in that order. -/
theorem normalize_concatenation (issues : List Issue)
    (projects users : List String) :
    generate_output_dataframe issues projects users =
      issues.map (fun i => ("issues", RecordData.issue i))
      ++ projects.map (fun p => ("projects", RecordData.project p))
      ++ users.map (fun u => ("users", RecordData.user u))
    ∧ generate_output_dataframe [issueN1, issueN2] ["P1"] ["U1", "U2"] =
      [("issues", RecordData.issue issueN1),
       ("issues", RecordData.issue issueN2),
       ("projects", RecordData.project "P1"),
       ("users", RecordData.user "U1"),
       ("users", RecordData.user "U2")] := by
  constructor
  · unfold generate_output_dataframe
    simp only [foldl_append_singleton]
    simp [List.append_assoc]
  · rfl

theorem appendUsers_eq (fields : List (Option String)) :
    ∀ us : List String, appendUsers us fields = us ++ fields.filterMap id := by
  induction fields with
  | nil => intro us; simp [appendUsers]
  | cons f fs ih =>
    intro us
    cases f with
    | some u =>
      show appendUsers (us ++ [u]) fs = _
      rw [ih]
      simp
    | none =>
      show appendUsers us fs = _
      rw [ih]
      simp

theorem foldl_projectStep_fst (l : List Issue) :
    ∀ (ps : List String) (d : String),
      (l.foldl projectStep (ps, d)).fst =
        ps ++ l.filterMap (fun i => i.fields.project) := by
  induction l with
  | nil => intro ps d; simp
  | cons x xs ih =>
    intro ps d
    rw [List.foldl_cons]
    cases hx : x.fields.project with
    | some p =>
      have hstep : projectStep (ps, d) x = (ps ++ [p], maxStep d x) := by
        unfold projectStep
        rw [hx]
      rw [hstep, ih]
      simp [List.filterMap_cons, hx]
    | none =>
      have hstep : projectStep (ps, d) x = (ps, maxStep d x) := by
        unfold projectStep
        rw [hx]
      rw [hstep, ih]
      simp [List.filterMap_cons, hx]

theorem foldl_userStep_fst (l : List Issue) :
    ∀ (us : List String) (d : String),
      (l.foldl userStep (us, d)).fst =
        us ++ l.flatMap (fun i => (userFields i.fields).filterMap id) := by
  induction l with
  | nil => intro us d; simp
  | cons x xs ih =>
    intro us d
    rw [List.foldl_cons]
    have hstep : userStep (us, d) x =
        (appendUsers us (userFields x.fields), maxStep d x) := rfl
    rw [hstep, ih, appendUsers_eq]
    simp [List.flatMap_cons, List.append_assoc]

/-- A concrete issue carrying a project and two user fields. -/
def issueP : Issue :=
  ⟨⟨"2021-09-03T00:00:00.000+0000", some "P", some "alice", none, none, none, some "bob"⟩⟩

/-- Claim C8 counterexample: the project extractor does not return the
sequence it was given — on a two-issue input whose first issue has no
truthy `fields.project`, the returned sequence has a single element, so
extraction filters. -/
theorem extract_projects_filter_refutation :
    (extract_projects_from_issues [issueA, issueP]).map Prod.fst = some ["P"]
    ∧ [issueA, issueP].length = 2 ∧ ["P"].length = 1 := by decide

/-- Claim C8 amended: the plain-issue extractor returns exactly the
object sequence it was given, unchanged; the project-bearing and
user-bearing extractors instead return, in input order and without
sorting or deduplication, the extracted field values — the truthy
`fields.project` of each issue, respectively the truthy values among the
five user fields of each issue in their fixed order — skipping issues
and fields without such a value. -/
theorem extract_sequences_spec (resp : SearchResponse) (issues : List Issue)
    (h : issues ≠ []) :
    (extract_issues_from_response resp).fst = resp.issues
    ∧ (extract_projects_from_issues issues).map Prod.fst =
        some (issues.filterMap (fun i => i.fields.project))
    ∧ (extract_users_from_issues issues).map Prod.fst =
        some (issues.flatMap (fun i => (userFields i.fields).filterMap id)) := by
  refine ⟨rfl, ?_, ?_⟩
  · unfold extract_projects_from_issues
    rw [List.getLast?_eq_getLast _ h]
    simp [foldl_projectStep_fst]
  · unfold extract_users_from_issues
    rw [List.getLast?_eq_getLast _ h]
    simp [foldl_userStep_fst]

theorem extract_sequences_spec_witness :
    [issueA, issueP] ≠ []
    ∧ ((extract_issues_from_response ⟨[issueA]⟩).fst =
        (⟨[issueA]⟩ : SearchResponse).issues
      ∧ (extract_projects_from_issues [issueA, issueP]).map Prod.fst =
          some ([issueA, issueP].filterMap (fun i => i.fields.project))
      ∧ (extract_users_from_issues [issueA, issueP]).map Prod.fst =
          some ([issueA, issueP].flatMap
            (fun i => (userFields i.fields).filterMap id))) :=
  ⟨by decide, extract_sequences_spec ⟨[issueA]⟩ [issueA, issueP] (by decide)⟩
